import Mathlib

/-!
# Verification of the parameterized test-declaration and execution engine

Shallow embedding of the core of `src/cts/generate_listing.js` (the
`TestGroup` / `TestBuilder` / `RunCaseSpecific` framework) in Lean 4.

JavaScript is unityped, so all parameter records (case params, subcase
params, merged params) are modelled by a single abstract type `P`.
The parameter utilities (`extractPublicParams`, `mergeParams`,
`stringifyPublicParams`, `stringifyPublicParamsUniquely`), the path
separator, the query-part validity predicate and `decodeURIComponent`
are external collaborators of the core; they are taken as abstract
function arguments.  Exceptions are modelled explicitly: a JavaScript
exception is either the distinguished `SkipTestCase` signal or an
ordinary error, each carrying a message.  Fallible operations return
`Except String` (an assertion failure aborts with its message).
-/

set_option autoImplicit false

namespace CTS

/-- A JavaScript exception as seen by the framework: either the
distinguished `SkipTestCase` signal or an ordinary error, each carrying
a message string. -/
inductive Ex where
  | skip (msg : String)
  | err (msg : String)
deriving DecidableEq, Repr

/-- Embeds `ex instanceof SkipTestCase`. -/
def Ex.isSkip : Ex → Bool
  | .skip _ => true
  | .err _ => false

/-- Embeds `ex.message`. -/
def Ex.message : Ex → String
  | .skip m => m
  | .err m => m

/-- One structured event appended to the Recorder (an append-only sink). -/
inductive Event where
  | start
  | info (msg : String)
  | debug (msg : String)
  | threw (msg : String)
  | skipped (msg : String)
  | finish
deriving DecidableEq, Repr

/-- Modelled from the spec: `TestCaseRecorder.threw` (the recorder lives in
`logging/test_case_recorder.js`, which is not part of the core source).
Per §4.4/§7 of the spec, a caught Skip signal reported through the
recorder's `threw` entry point is recorded as a skip event, and any other
exception as a thrown/failure event (Scenario C expects a `skipped` event
from an unimplemented test, which reaches the recorder via `threw`). -/
def recThrew (ex : Ex) : Event :=
  match ex with
  | .skip m => .skipped m
  | .err m => .threw m

/-- The behaviour of a fixture class for one run: the outcome of the
constructor, of `init()`, and of `finalize()`, each as a function of the
parameter record the instance was constructed with (`none` = completes
normally, `some ex` = throws `ex`). The fixture is an external
collaborator; its domain behaviour beyond these outcomes is out of scope. -/
structure FixtureClass (P : Type) where
  construct : P → Option Ex
  init : P → Option Ex
  finalize : P → Option Ex

/-- The body of the `try`/`finally` inside `RunCaseSpecific.runTest`,
given that construction succeeded:
`try { await inst.init(); await this.fn(inst); } finally { await inst.finalize(); }`.
Returns the exception (if any) propagating out of the `try`/`finally`:
per JavaScript semantics, an exception thrown by the `finally` block
supersedes the result of the `try` block. -/
def initBodyFinally {P : Type} (fx : FixtureClass P) (fn : P → Option Ex)
    (params : P) : Option Ex :=
  let tryRes : Option Ex :=
    match fx.init params with
    | some ex => some ex
    | none => fn params
  match fx.finalize params with
  | some exF => some exF
  | none => tryRes

/-- The outer `try` block of `RunCaseSpecific.runTest`: construct the
fixture, then run init/body/finalize. Returns the number of `finalize`
invocations together with the exception (if any) reaching the outer
`catch` clause. `finalize` runs exactly when the constructor succeeded. -/
def trialResult {P : Type} (fx : FixtureClass P) (fn : P → Option Ex)
    (params : P) : Nat × Option Ex :=
  match fx.construct params with
  | some ex => (0, some ex)
  | none => (1, initBodyFinally fx fn params)

/-- Embeds `RunCaseSpecific.runTest(rec, params, throwSkip)`. Returns the events
appended to the Recorder, the number of `finalize` invocations, and the
exception (if any) propagating out of `runTest` — only a `SkipTestCase`
can escape, and only when `throwSkip` is set; every other exception is
reported via `rec.threw`. -/
def runTest {P : Type} (fx : FixtureClass P) (fn : P → Option Ex)
    (params : P) (throwSkip : Bool) : List Event × Nat × Option Ex :=
  let (fc, caught) := trialResult fx fn params
  match caught with
  | none => ([], fc, none)
  | some ex =>
    if throwSkip && ex.isSkip then ([], fc, some ex)
    else ([recThrew ex], fc, none)

/-- Embeds `TestCaseID`: the identity of a Run Case — the test path paired with
the public view of its case parameter record. -/
structure TestCaseID (P : Type) where
  test : List String
  params : P
deriving DecidableEq

/-- Embeds `RunCaseSpecific`: one concrete runnable instance of a declaration. -/
structure RunCaseSpecific (P : Type) where
  id : TestCaseID P
  params : P
  subParamGen : Option (P → List P)
  fixture : FixtureClass P
  fn : P → Option Ex

/-- The `RunCaseSpecific` constructor: stores the parameters and computes
`id = { test: testPath, params: extractPublicParams(params) }`, where
`extractPublicParams` is the Parameter Utilities collaborator stripping
non-public fields. -/
def mkRunCaseSpecific {P : Type} (extractPublicParams : P → P)
    (testPath : List String) (params : P) (subParamGen : Option (P → List P))
    (fixture : FixtureClass P) (fn : P → Option Ex) : RunCaseSpecific P :=
  { id := ⟨testPath, extractPublicParams params⟩
    params := params
    subParamGen := subParamGen
    fixture := fixture
    fn := fn }

/-- One iteration of the subcase loop in `RunCaseSpecific.run`: emit the
`info` note naming the subcase, run the trial with merged parameters and
`throwSkip = true`, and handle a caught exception — a re-raised Skip
signal is demoted to a `debug` note with a rewritten message and counts
as a skip; any other escaping exception would be reported via
`rec.threw` (defensive, unreachable). Returns the events and the skip
increment. -/
def subcaseStep {P : Type} (uniq : P → String) (fx : FixtureClass P)
    (fn : P → Option Ex) (merged : P) (subParams : P) : List Event × Nat :=
  let infoEv := Event.info ("subcase: " ++ uniq subParams)
  let (evs, _, esc) := runTest fx fn merged true
  match esc with
  | none => (infoEv :: evs, 0)
  | some ex =>
    if ex.isSkip then
      (infoEv :: (evs ++ [Event.debug ("subcase skipped: " ++ ex.message)]), 1)
    else
      (infoEv :: (evs ++ [recThrew ex]), 0)

/-- The subcase loop of `RunCaseSpecific.run` over the generated subcase
parameter records, in order. Returns the accumulated events, the skip
count and the total count. -/
def subcaseLoop {P : Type} (uniq : P → String) (mergeParams : P → P → P)
    (fx : FixtureClass P) (fn : P → Option Ex) (params : P) :
    List P → List Event × Nat × Nat
  | [] => ([], 0, 0)
  | sp :: rest =>
    let (evs, skipInc) := subcaseStep uniq fx fn (mergeParams params sp) sp
    let (revs, sc, tc) := subcaseLoop uniq mergeParams fx fn params rest
    (evs ++ revs, skipInc + sc, 1 + tc)

/-- Embeds `RunCaseSpecific.run(rec)`. Returns the events appended to the
Recorder and the exception (if any) propagating out of `run`. With a
subcase generator: `rec.start()`, the subcase loop, a case-level
`rec.skipped` exactly when the skip count equals the total count, then
`rec.finish()`. Without one: `rec.start()`, a single trial over the case
parameters with `throwSkip = false`, then `rec.finish()` — if that trial
threw out of `runTest`, `rec.finish()` would not run and the exception
would propagate. -/
def run {P : Type} (uniq : P → String) (mergeParams : P → P → P)
    (rc : RunCaseSpecific P) : List Event × Option Ex :=
  match rc.subParamGen with
  | some gen =>
    let (evs, sc, tc) := subcaseLoop uniq mergeParams rc.fixture rc.fn rc.params
        (gen rc.params)
    let skipEvs : List Event :=
      if sc = tc then [Event.skipped "all subcases were skipped"] else []
    (Event.start :: (evs ++ skipEvs ++ [Event.finish]), none)
  | none =>
    let (evs, _, esc) := runTest rc.fixture rc.fn rc.params false
    match esc with
    | none => (Event.start :: (evs ++ [Event.finish]), none)
    | some ex => (Event.start :: evs, some ex)

/-- A one-shot JavaScript iterator: yields its remaining elements once,
then is exhausted. Models the `Iterable` argument of
`TestBuilder.cases`. -/
structure OneShotIter (P : Type) where
  remaining : List P
deriving DecidableEq

/-- Embeds `iterator.next()`: yields the next element and the advanced iterator,
or nothing when exhausted. -/
def OneShotIter.next {P : Type} : OneShotIter P → Option (P × OneShotIter P)
  | ⟨[]⟩ => none
  | ⟨x :: xs⟩ => some (x, ⟨xs⟩)

/-- Embeds `Array.from(iterable)`: eagerly drains the iterator, returning the
collected elements and the (now exhausted) iterator. -/
def arrayFrom {P : Type} : OneShotIter P → List P × OneShotIter P
  | ⟨[]⟩ => ([], ⟨[]⟩)
  | ⟨x :: xs⟩ =>
    let (l, it) := arrayFrom ⟨xs⟩
    (x :: l, it)

/-- The path-separator collaborator (`kPathSeparator`) is a fixed
single-character token; `sepStr` is it as a string, for joining. -/
def sepStr (sep : Char) : String := String.mk [sep]

/-- JS `String.prototype.split` with a single-character separator, over
the character list of the string. -/
def jsSplitChars (sep : Char) : List Char → List (List Char)
  | [] => [[]]
  | c :: rest =>
    match jsSplitChars sep rest with
    | [] => [[]]
    | seg :: segs =>
      if c = sep then [] :: seg :: segs else (c :: seg) :: segs

/-- Embeds `name.split(kPathSeparator)`: JS string split by the (one-character)
path separator. -/
def jsSplit (sep : Char) (s : String) : List String :=
  (jsSplitChars sep s.data).map String.mk

/-- Embeds `TestBuilder`: accumulates one declaration's shape — the test path, an
optional trimmed description, the fixture class, an optional test body,
an optional case-parameter sequence, an optional subcase generator, and
the creation-origin text captured at declaration time.  (V8 places an
`Error`'s message at the head of its `.stack`; the runtime stack frames
below it are a runtime artifact, so the stack is modelled by the
`Test created: <name>` message of the `Error` allocated in
`TestGroup.test`.) -/
structure TestBuilder (P : Type) where
  testPath : List String
  description : Option String
  fixture : FixtureClass P
  testFn : Option (P → Option Ex)
  caseParams : Option (List P)
  subcaseParams : Option (P → List P)
  testCreationStack : String

/-- Embeds `TestBuilder.desc(description)`: sets the trimmed description. -/
def TestBuilder.desc {P : Type} (tb : TestBuilder P) (description : String) :
    TestBuilder P :=
  { tb with description := some description.trim }

/-- Embeds `TestBuilder.fn(fn)`: attaches the test body;
`assert(this.testFn === undefined)` fails if one is already attached. -/
def TestBuilder.fn {P : Type} (tb : TestBuilder P) (f : P → Option Ex) :
    Except String (TestBuilder P) :=
  match tb.testFn with
  | some _ => .error "assert failed: this.testFn === undefined"
  | none => .ok { tb with testFn := some f }

/-- The synthetic body attached by `TestBuilder.unimplemented`:
`() => { throw new SkipTestCase('test unimplemented'); }`. -/
def unimplementedFn {P : Type} : P → Option Ex :=
  fun _ => some (Ex.skip "test unimplemented")

/-- Embeds `TestBuilder.unimplemented()`: fails if a body is already attached;
otherwise appends the `TODO: .unimplemented()` marker to the description
and attaches the synthetic Skip-throwing body. -/
def TestBuilder.unimplemented {P : Type} (tb : TestBuilder P) :
    Except String (TestBuilder P) :=
  match tb.testFn with
  | some _ => .error "assert failed: this.testFn === undefined"
  | none =>
    let d := match tb.description with
      | some d => d ++ "\n\n" ++ "TODO: .unimplemented()"
      | none => "TODO: .unimplemented()"
    .ok { tb with description := some d, testFn := some unimplementedFn }

/-- Embeds `TestBuilder.cases(casesIterable)`: asserts cases are not already
attached, then eagerly copies the iterable via `Array.from` into the
stored sequence.  Returns the updated builder together with the drained
iterator. -/
def TestBuilder.cases {P : Type} (tb : TestBuilder P) (it : OneShotIter P) :
    Except String (TestBuilder P × OneShotIter P) :=
  match tb.caseParams with
  | some _ => .error "test case is already parameterized"
  | none =>
    let (l, it') := arrayFrom it
    .ok ({ tb with caseParams := some l }, it')

/-- Embeds `TestBuilder.subcases(specs)`: asserts subcases are not already
attached, then stores the generator. -/
def TestBuilder.subcases {P : Type} (tb : TestBuilder P)
    (specs : P → List P) : Except String (TestBuilder P) :=
  match tb.subcaseParams with
  | some _ => .error "test subcases are already parameterized"
  | none => .ok { tb with subcaseParams := some specs }

/-- The diagnostic produced by `TestBuilder.validate` for a declaration
with no attached body: it names the test and cites the creation origin. -/
def missingFnMsg (testPathString : String) (stack : String) : String :=
  "Test is missing .fn(): " ++ testPathString ++
    "\n-> test created at:\n" ++ stack

/-- The diagnostic produced by `TestBuilder.validate` for a duplicate
case: it cites the human-readable rendering of the offending record. -/
def dupCaseMsg (testPathString : String) (testcaseString : String) : String :=
  "Duplicate public test case params for test " ++ testPathString ++ ": " ++
    testcaseString

/-- The duplicate-detection loop of `TestBuilder.validate`: for each case
record in order, render its unique key (`stringifyPublicParamsUniquely`)
and assert it was not seen before, citing the human-readable rendering
(`stringifyPublicParams`) on failure; then add the key to the seen set. -/
def validateCases {P : Type} (spp sppu : P → String) (testPathString : String) :
    List String → List P → Except String Unit
  | _, [] => .ok ()
  | seen, tc :: rest =>
    if sppu tc ∈ seen then .error (dupCaseMsg testPathString (spp tc))
    else validateCases spp sppu testPathString (sppu tc :: seen) rest

/-- Embeds `TestBuilder.validate()`: asserts a body is attached (citing the
creation origin), then — only if a case-parameter sequence is attached —
runs the duplicate-unique-key check over it. -/
def TestBuilder.validate {P : Type} (spp sppu : P → String)
    (kPathSeparator : Char) (tb : TestBuilder P) : Except String Unit :=
  let testPathString := String.intercalate (sepStr kPathSeparator) tb.testPath
  match tb.testFn with
  | none => .error (missingFnMsg testPathString tb.testCreationStack)
  | some _ =>
    match tb.caseParams with
    | none => .ok ()
    | some cps => validateCases spp sppu testPathString [] cps

/-- Embeds `TestBuilder.iterate()`: asserts a body is attached, then yields one
`RunCaseSpecific` per case record (in declaration order), or a single
one over the empty parameter record `{}` (the abstract value `emptyP`)
when no case sequence was attached. -/
def TestBuilder.iterate {P : Type} (extractPublicParams : P → P) (emptyP : P)
    (tb : TestBuilder P) : Except String (List (RunCaseSpecific P)) :=
  match tb.testFn with
  | none => .error "No test function (.fn()) for test"
  | some f =>
    .ok ((tb.caseParams.getD [emptyP]).map fun params =>
      mkRunCaseSpecific extractPublicParams tb.testPath params
        tb.subcaseParams tb.fixture f)

/-- Embeds `TestGroup`: the registry for one fixture type — the set of names
already seen and the ordered collection of declarations. -/
structure TestGroup (P : Type) where
  fixture : FixtureClass P
  seen : List String
  tests : List (TestBuilder P)

/-- Embeds `makeTestGroup(fixture)` / `makeTestGroupForUnitTesting(fixture)`. -/
def makeTestGroup {P : Type} (fixture : FixtureClass P) : TestGroup P :=
  { fixture := fixture, seen := [], tests := [] }

/-- Embeds `TestGroup.checkName(name)`: asserts the name is
`decodeURIComponent`-idempotent and not already registered, then adds it
to the seen set.  `decodeURIComponent` is the JavaScript built-in, taken
abstractly. -/
def TestGroup.checkName {P : Type} (dec : String → String) (g : TestGroup P)
    (name : String) : Except String (TestGroup P) :=
  if name ≠ dec name then
    .error ("Not decodeURIComponent-idempotent: " ++ name ++ " !== " ++ dec name)
  else if name ∈ g.seen then
    .error ("Duplicate test name: " ++ name)
  else
    .ok { g with seen := name :: g.seen }

/-- Embeds `TestGroup.test(name)`: captures the creation origin, checks the name,
splits it by the path separator, asserts every part is a valid query part
(`validQueryPart` is the external syntactic validity predicate, taken
abstractly as `vqp`), then creates and stores a fresh declaration and
returns it. -/
def TestGroup.test {P : Type} (dec : String → String) (vqp : String → Bool)
    (kPathSeparator : Char) (g : TestGroup P) (name : String) :
    Except String (TestGroup P × TestBuilder P) :=
  let testCreationStack := "Test created: " ++ name
  match g.checkName dec name with
  | .error e => .error e
  | .ok g' =>
    let parts := jsSplit kPathSeparator name
    if parts.all vqp then
      let tb : TestBuilder P :=
        { testPath := parts
          description := none
          fixture := g.fixture
          testFn := none
          caseParams := none
          subcaseParams := none
          testCreationStack := testCreationStack }
      .ok ({ g' with tests := g'.tests ++ [tb] }, tb)
    else
      .error "Invalid test name part"

/-- The loop of `TestGroup.validate()`: validates every stored
declaration in order; the first structural violation aborts. -/
def validateList {P : Type} (spp sppu : P → String) (kPathSeparator : Char) :
    List (TestBuilder P) → Except String Unit
  | [] => .ok ()
  | tb :: rest =>
    match tb.validate spp sppu kPathSeparator with
    | .error e => .error e
    | .ok _ => validateList spp sppu kPathSeparator rest

/-- Embeds `TestGroup.validate()`: validates every stored declaration. -/
def TestGroup.validate {P : Type} (spp sppu : P → String)
    (kPathSeparator : Char) (g : TestGroup P) : Except String Unit :=
  validateList spp sppu kPathSeparator g.tests

/-! ## Supporting lemmas about the execution protocol -/

lemma recThrew_skipped_or_threw (ex : Ex) :
    (∃ m, recThrew ex = Event.skipped m) ∨ (∃ m, recThrew ex = Event.threw m) := by
  cases ex with
  | skip m => exact Or.inl ⟨m, rfl⟩
  | err m => exact Or.inr ⟨m, rfl⟩

lemma runTest_events_mem {P : Type} (fx : FixtureClass P) (fn : P → Option Ex)
    (p : P) (ts : Bool) {ev : Event} (h : ev ∈ (runTest fx fn p ts).1) :
    ∃ ex, ev = recThrew ex := by
  rcases hT : trialResult fx fn p with ⟨fc, caught⟩
  simp only [runTest, hT] at h
  cases caught with
  | none => simp at h
  | some ex =>
    by_cases hs : ts && ex.isSkip
    · simp [hs] at h
    · simp [hs] at h
      exact ⟨ex, h⟩

lemma runTest_finalize_count {P : Type} (fx : FixtureClass P)
    (fn : P → Option Ex) (p : P) (ts : Bool) :
    (runTest fx fn p ts).2.1 = (trialResult fx fn p).1 := by
  rcases hT : trialResult fx fn p with ⟨fc, caught⟩
  cases caught with
  | none => simp [runTest, hT]
  | some ex =>
    by_cases hs : ts && ex.isSkip
    · simp [runTest, hT, hs]
    · simp [runTest, hT, hs]

lemma runTest_false_esc {P : Type} (fx : FixtureClass P) (fn : P → Option Ex)
    (p : P) : (runTest fx fn p false).2.2 = none := by
  rcases hT : trialResult fx fn p with ⟨fc, caught⟩
  cases caught with
  | none => simp [runTest, hT]
  | some ex => simp [runTest, hT]

lemma runTest_false_events {P : Type} (fx : FixtureClass P) (fn : P → Option Ex)
    (p : P) :
    (runTest fx fn p false).1 =
      match (trialResult fx fn p).2 with
      | none => []
      | some ex => [recThrew ex] := by
  rcases hT : trialResult fx fn p with ⟨fc, caught⟩
  cases caught with
  | none => simp [runTest, hT]
  | some ex => simp [runTest, hT]

lemma runTest_esc_some {P : Type} {fx : FixtureClass P} {fn : P → Option Ex}
    {p : P} {ts : Bool} {ex : Ex} (h : (runTest fx fn p ts).2.2 = some ex) :
    ts = true ∧ ex.isSkip = true ∧ (runTest fx fn p ts).1 = [] ∧
      (trialResult fx fn p).2 = some ex := by
  rcases hT : trialResult fx fn p with ⟨fc, caught⟩
  simp only [runTest, hT] at h ⊢
  cases caught with
  | none => simp at h
  | some ex' =>
    by_cases hs : ts && ex'.isSkip
    · simp [hs] at h ⊢
      rcases Bool.and_eq_true_iff.mp hs with ⟨h1, h2⟩
      exact ⟨h1, h ▸ h2, h ▸ rfl⟩
    · simp [hs] at h

lemma runTest_esc_none_of_not_skip {P : Type} {fx : FixtureClass P}
    {fn : P → Option Ex} {p : P} {ts : Bool}
    (h : (runTest fx fn p ts).2.2 = none) :
    ∀ ex, (trialResult fx fn p).2 = some ex → ts = true → ex.isSkip = false := by
  intro ex hT hts
  rcases hP : trialResult fx fn p with ⟨fc, caught⟩
  rw [hP] at hT; simp at hT
  subst hts
  simp only [runTest, hP, hT] at h
  by_cases hs : ex.isSkip
  · simp [hs] at h
  · simpa using hs

lemma runTest_true_events {P : Type} (fx : FixtureClass P) (fn : P → Option Ex)
    (p : P) {ev : Event} (h : ev ∈ (runTest fx fn p true).1) :
    ∃ m, ev = Event.threw m := by
  rcases hT : trialResult fx fn p with ⟨fc, caught⟩
  simp only [runTest, hT] at h
  cases caught with
  | none => simp at h
  | some ex =>
    by_cases hs : ex.isSkip
    · simp [hs] at h
    · simp [hs] at h
      subst h
      cases ex with
      | skip m => simp [Ex.isSkip] at hs
      | err m => exact ⟨m, rfl⟩

/-- Whether the trial for subcase `sp` of case `params` re-raises the Skip
signal out of `runTest` (the `throwSkip = true` escape). -/
def reRaisedSkip {P : Type} (mergeParams : P → P → P) (fx : FixtureClass P)
    (fn : P → Option Ex) (params sp : P) : Bool :=
  ((runTest fx fn (mergeParams params sp) true).2.2).isSome

/-- Recognizer for `debug` events. -/
def Event.isDebug : Event → Bool
  | .debug _ => true
  | _ => false

lemma subcaseStep_skip {P : Type} (uniq : P → String) (fx : FixtureClass P)
    (fn : P → Option Ex) (merged sp : P) {ex : Ex}
    (h : (runTest fx fn merged true).2.2 = some ex) :
    subcaseStep uniq fx fn merged sp =
      ([Event.info ("subcase: " ++ uniq sp),
        Event.debug ("subcase skipped: " ++ ex.message)], 1) := by
  obtain ⟨-, hskip, hevs, -⟩ := runTest_esc_some h
  rcases hR : runTest fx fn merged true with ⟨evs, fc, esc⟩
  rw [hR] at h hevs
  simp at h hevs
  simp [subcaseStep, hR, hevs, h, hskip]

lemma subcaseStep_noskip {P : Type} (uniq : P → String) (fx : FixtureClass P)
    (fn : P → Option Ex) (merged sp : P)
    (h : (runTest fx fn merged true).2.2 = none) :
    subcaseStep uniq fx fn merged sp =
      (Event.info ("subcase: " ++ uniq sp) :: (runTest fx fn merged true).1, 0) := by
  rcases hR : runTest fx fn merged true with ⟨evs, fc, esc⟩
  rw [hR] at h
  simp at h
  simp [subcaseStep, hR, h]

lemma subcaseStep_count {P : Type} (uniq : P → String) (fx : FixtureClass P)
    (fn : P → Option Ex) (merged sp : P) :
    (subcaseStep uniq fx fn merged sp).2 =
      if ((runTest fx fn merged true).2.2).isSome then 1 else 0 := by
  cases h : (runTest fx fn merged true).2.2 with
  | none => simp [subcaseStep_noskip uniq fx fn merged sp h, h]
  | some ex => simp [subcaseStep_skip uniq fx fn merged sp h, h]

lemma subcaseStep_events_mem {P : Type} {uniq : P → String}
    {fx : FixtureClass P} {fn : P → Option Ex} {merged sp : P} {ev : Event}
    (h : ev ∈ (subcaseStep uniq fx fn merged sp).1) :
    (∃ s, ev = Event.info s) ∨ (∃ s, ev = Event.debug s) ∨
      (∃ s, ev = Event.threw s) := by
  cases hesc : (runTest fx fn merged true).2.2 with
  | none =>
    rw [subcaseStep_noskip uniq fx fn merged sp hesc] at h
    simp at h
    rcases h with h | h
    · exact Or.inl ⟨_, h⟩
    · obtain ⟨m, rfl⟩ := runTest_true_events fx fn merged h
      exact Or.inr (Or.inr ⟨m, rfl⟩)
  | some ex =>
    rw [subcaseStep_skip uniq fx fn merged sp hesc] at h
    simp at h
    rcases h with h | h
    · exact Or.inl ⟨_, h⟩
    · exact Or.inr (Or.inl ⟨_, h⟩)

lemma subcaseStep_debug_msg {P : Type} {uniq : P → String}
    {fx : FixtureClass P} {fn : P → Option Ex} {merged sp : P} {s : String}
    (h : Event.debug s ∈ (subcaseStep uniq fx fn merged sp).1) :
    ∃ s₀, s = "subcase skipped: " ++ s₀ := by
  cases hesc : (runTest fx fn merged true).2.2 with
  | none =>
    rw [subcaseStep_noskip uniq fx fn merged sp hesc] at h
    simp at h
    obtain ⟨m, hm⟩ := runTest_true_events fx fn merged h
    exact absurd hm (by simp)
  | some ex =>
    rw [subcaseStep_skip uniq fx fn merged sp hesc] at h
    simp at h
    exact ⟨ex.message, h⟩

lemma subcaseStep_debug_count {P : Type} (uniq : P → String)
    (fx : FixtureClass P) (fn : P → Option Ex) (merged sp : P) :
    ((subcaseStep uniq fx fn merged sp).1.filter Event.isDebug).length =
      (subcaseStep uniq fx fn merged sp).2 := by
  cases hesc : (runTest fx fn merged true).2.2 with
  | none =>
    rw [subcaseStep_noskip uniq fx fn merged sp hesc]
    simp [Event.isDebug]
    intro ev hev
    obtain ⟨m, rfl⟩ := runTest_true_events fx fn merged hev
    simp [Event.isDebug]
  | some ex =>
    rw [subcaseStep_skip uniq fx fn merged sp hesc]
    simp [Event.isDebug]

lemma subcaseLoop_total {P : Type} (uniq : P → String) (mergeParams : P → P → P)
    (fx : FixtureClass P) (fn : P → Option Ex) (params : P) (subs : List P) :
    (subcaseLoop uniq mergeParams fx fn params subs).2.2 = subs.length := by
  induction subs with
  | nil => rfl
  | cons sp rest ih =>
    rcases hS : subcaseStep uniq fx fn (mergeParams params sp) sp with ⟨evs, skipInc⟩
    rcases hL : subcaseLoop uniq mergeParams fx fn params rest with ⟨revs, sc, tc⟩
    rw [hL] at ih
    simp at ih
    simp [subcaseLoop, hS, hL, ih, Nat.add_comm]

lemma subcaseLoop_skips {P : Type} (uniq : P → String) (mergeParams : P → P → P)
    (fx : FixtureClass P) (fn : P → Option Ex) (params : P) (subs : List P) :
    (subcaseLoop uniq mergeParams fx fn params subs).2.1 =
      (subs.filter (reRaisedSkip mergeParams fx fn params)).length := by
  induction subs with
  | nil => rfl
  | cons sp rest ih =>
    rcases hL : subcaseLoop uniq mergeParams fx fn params rest with ⟨revs, sc, tc⟩
    rw [hL] at ih
    simp at ih
    have hS := subcaseStep_count uniq fx fn (mergeParams params sp) sp
    rcases hS' : subcaseStep uniq fx fn (mergeParams params sp) sp with ⟨evs, skipInc⟩
    rw [hS'] at hS
    simp at hS
    simp only [subcaseLoop, hS', hL, List.filter]
    by_cases hr : reRaisedSkip mergeParams fx fn params sp
    · simp only [reRaisedSkip] at hr
      simp [hr] at hS
      simp [reRaisedSkip, hr, hS, ih, Nat.add_comm]
    · simp only [reRaisedSkip] at hr
      simp [hr] at hS
      simp [reRaisedSkip, hr, hS, ih]

lemma subcaseLoop_events_mem {P : Type} {uniq : P → String}
    {mergeParams : P → P → P} {fx : FixtureClass P} {fn : P → Option Ex}
    {params : P} {subs : List P} {ev : Event}
    (h : ev ∈ (subcaseLoop uniq mergeParams fx fn params subs).1) :
    (∃ s, ev = Event.info s) ∨ (∃ s, ev = Event.debug s) ∨
      (∃ s, ev = Event.threw s) := by
  induction subs with
  | nil => simp [subcaseLoop] at h
  | cons sp rest ih =>
    rcases hS : subcaseStep uniq fx fn (mergeParams params sp) sp with ⟨evs, skipInc⟩
    rcases hL : subcaseLoop uniq mergeParams fx fn params rest with ⟨revs, sc, tc⟩
    rw [hL] at ih
    simp only [subcaseLoop, hS, hL, List.mem_append] at h
    rcases h with h | h
    · have : ev ∈ (subcaseStep uniq fx fn (mergeParams params sp) sp).1 := by
        rw [hS]; exact h
      exact subcaseStep_events_mem this
    · exact ih h

lemma subcaseLoop_debug_msg {P : Type} {uniq : P → String}
    {mergeParams : P → P → P} {fx : FixtureClass P} {fn : P → Option Ex}
    {params : P} {subs : List P} {s : String}
    (h : Event.debug s ∈ (subcaseLoop uniq mergeParams fx fn params subs).1) :
    ∃ s₀, s = "subcase skipped: " ++ s₀ := by
  induction subs with
  | nil => simp [subcaseLoop] at h
  | cons sp rest ih =>
    rcases hS : subcaseStep uniq fx fn (mergeParams params sp) sp with ⟨evs, skipInc⟩
    rcases hL : subcaseLoop uniq mergeParams fx fn params rest with ⟨revs, sc, tc⟩
    rw [hL] at ih
    simp only [subcaseLoop, hS, hL, List.mem_append] at h
    rcases h with h | h
    · have : Event.debug s ∈ (subcaseStep uniq fx fn (mergeParams params sp) sp).1 := by
        rw [hS]; exact h
      exact subcaseStep_debug_msg this
    · exact ih h

lemma subcaseLoop_debug_count {P : Type} (uniq : P → String)
    (mergeParams : P → P → P) (fx : FixtureClass P) (fn : P → Option Ex)
    (params : P) (subs : List P) :
    ((subcaseLoop uniq mergeParams fx fn params subs).1.filter
        Event.isDebug).length =
      (subcaseLoop uniq mergeParams fx fn params subs).2.1 := by
  induction subs with
  | nil => rfl
  | cons sp rest ih =>
    rcases hS : subcaseStep uniq fx fn (mergeParams params sp) sp with ⟨evs, skipInc⟩
    rcases hL : subcaseLoop uniq mergeParams fx fn params rest with ⟨revs, sc, tc⟩
    rw [hL] at ih
    simp at ih
    have hD := subcaseStep_debug_count uniq fx fn (mergeParams params sp) sp
    rw [hS] at hD
    simp at hD
    simp [subcaseLoop, hS, hL, List.filter_append, hD, ih]

lemma run_eq_of_none {P : Type} (uniq : P → String) (mergeParams : P → P → P)
    (rc : RunCaseSpecific P) (h : rc.subParamGen = none) :
    run uniq mergeParams rc =
      (Event.start :: ((runTest rc.fixture rc.fn rc.params false).1 ++
        [Event.finish]), none) := by
  have hesc := runTest_false_esc rc.fixture rc.fn rc.params
  rcases hR : runTest rc.fixture rc.fn rc.params false with ⟨evs, fc, esc⟩
  rw [hR] at hesc
  simp at hesc
  simp [run, h, hR, hesc]

lemma run_eq_of_some {P : Type} (uniq : P → String) (mergeParams : P → P → P)
    (rc : RunCaseSpecific P) (gen : P → List P) (h : rc.subParamGen = some gen)
    (evs : List Event) (sc tc : Nat)
    (hL : subcaseLoop uniq mergeParams rc.fixture rc.fn rc.params
        (gen rc.params) = (evs, sc, tc)) :
    run uniq mergeParams rc =
      (Event.start :: (evs ++
        (if sc = tc then [Event.skipped "all subcases were skipped"] else []) ++
        [Event.finish]), none) := by
  simp [run, h, hL]

/-! ## Claim theorems: execution protocol -/

/-- Claim C3: in every trial, once fixture construction succeeds the
fixture's `finalize` is invoked exactly once — whatever `init`, the body
and `finalize` itself do, and whether or not the trial is part of a
subcase expansion — and `finalize` is not invoked when construction
itself throws. -/
theorem runTest_finalize_exactly_once {P : Type} (fx : FixtureClass P)
    (fn : P → Option Ex) (params : P) (throwSkip : Bool) :
    (runTest fx fn params throwSkip).2.1 =
      if fx.construct params = none then 1 else 0 := by
  rw [runTest_finalize_count]
  cases h : fx.construct params <;> simp [trialResult, h]

/-- Claim C4: every execution of `RunCaseSpecific.run` emits the `start`
event strictly first and the `finish` event strictly last (no other
`start`/`finish` events occur in between), and no exception propagates
out of `run` — the Recorder event list is the only output. -/
theorem run_start_finish_bracketing {P : Type} (uniq : P → String)
    (mergeParams : P → P → P) (rc : RunCaseSpecific P) :
    (run uniq mergeParams rc).2 = none ∧
    ∃ mid, (run uniq mergeParams rc).1 = Event.start :: (mid ++ [Event.finish]) ∧
      Event.start ∉ mid ∧ Event.finish ∉ mid := by
  cases hg : rc.subParamGen with
  | none =>
    rw [run_eq_of_none uniq mergeParams rc hg]
    refine ⟨rfl, (runTest rc.fixture rc.fn rc.params false).1, rfl, ?_, ?_⟩
    · intro hmem
      obtain ⟨ex, hex⟩ := runTest_events_mem _ _ _ _ hmem
      cases ex <;> simp [recThrew] at hex
    · intro hmem
      obtain ⟨ex, hex⟩ := runTest_events_mem _ _ _ _ hmem
      cases ex <;> simp [recThrew] at hex
  | some gen =>
    rcases hL : subcaseLoop uniq mergeParams rc.fixture rc.fn rc.params
        (gen rc.params) with ⟨evs, sc, tc⟩
    rw [run_eq_of_some uniq mergeParams rc gen hg evs sc tc hL]
    have hevs : ∀ ev ∈ evs, ev ≠ Event.start ∧ ev ≠ Event.finish := by
      intro ev hev
      have : ev ∈ (subcaseLoop uniq mergeParams rc.fixture rc.fn rc.params
          (gen rc.params)).1 := by rw [hL]; exact hev
      rcases subcaseLoop_events_mem this with ⟨s, rfl⟩ | ⟨s, rfl⟩ | ⟨s, rfl⟩ <;>
        exact ⟨by simp, by simp⟩
    refine ⟨rfl,
      evs ++ (if sc = tc then [Event.skipped "all subcases were skipped"] else []),
      by simp, ?_, ?_⟩
    · intro hmem
      rcases List.mem_append.mp hmem with hmem | hmem
      · exact (hevs _ hmem).1 rfl
      · by_cases hsc : sc = tc <;> simp [hsc] at hmem
    · intro hmem
      rcases List.mem_append.mp hmem with hmem | hmem
      · exact (hevs _ hmem).2 rfl
      · by_cases hsc : sc = tc <;> simp [hsc] at hmem

/-- Claim C1: for a Run Case with no subcase generator, `run` performs
exactly one trial over the case parameters alone; a caught Skip signal
reaches the Recorder as a skip event, any other caught exception as a
thrown/failure event; in particular the Run Case of an unimplemented
declaration (its body is `unimplementedFn`, under a normally behaving
fixture) records a skipped event with the fixed reason. -/
theorem run_no_subcases_single_trial {P : Type} (uniq : P → String)
    (mergeParams : P → P → P) (rc : RunCaseSpecific P)
    (h : rc.subParamGen = none) :
    run uniq mergeParams rc =
      (Event.start :: ((runTest rc.fixture rc.fn rc.params false).1 ++
        [Event.finish]), none) ∧
    (∀ m, (trialResult rc.fixture rc.fn rc.params).2 = some (Ex.skip m) →
      (runTest rc.fixture rc.fn rc.params false).1 = [Event.skipped m]) ∧
    (∀ m, (trialResult rc.fixture rc.fn rc.params).2 = some (Ex.err m) →
      (runTest rc.fixture rc.fn rc.params false).1 = [Event.threw m]) ∧
    ((trialResult rc.fixture rc.fn rc.params).2 = none →
      (runTest rc.fixture rc.fn rc.params false).1 = []) ∧
    (rc.fn = unimplementedFn → rc.fixture.construct rc.params = none →
      rc.fixture.init rc.params = none → rc.fixture.finalize rc.params = none →
      (run uniq mergeParams rc).1 =
        [Event.start, Event.skipped "test unimplemented", Event.finish]) := by
  refine ⟨run_eq_of_none uniq mergeParams rc h, ?_, ?_, ?_, ?_⟩
  · intro m hm
    rw [runTest_false_events, hm]
    rfl
  · intro m hm
    rw [runTest_false_events, hm]
    rfl
  · intro hm
    rw [runTest_false_events, hm]
  · intro hfn hc hi hf
    have htr : (trialResult rc.fixture rc.fn rc.params).2 =
        some (Ex.skip "test unimplemented") := by
      simp [trialResult, initBodyFinally, hc, hi, hf, hfn, unimplementedFn]
    rw [run_eq_of_none uniq mergeParams rc h]
    rw [runTest_false_events, htr]
    rfl

/-- Concrete collaborators over the unit parameter record, used to
instantiate the execution theorems. -/
def uniqU : Unit → String := fun _ => "u"

/-- Concrete merge function over the unit parameter record. -/
def mergeU : Unit → Unit → Unit := fun a _ => a

/-- A fixture whose constructor, `init` and `finalize` all complete
normally. -/
def okFixtureU : FixtureClass Unit :=
  { construct := fun _ => none, init := fun _ => none, finalize := fun _ => none }

/-- The Run Case of a freshly declared test marked unimplemented: no
cases, no subcases, body `unimplementedFn`. -/
def rcUnimplemented : RunCaseSpecific Unit :=
  { id := ⟨["t"], ()⟩
    params := ()
    subParamGen := none
    fixture := okFixtureU
    fn := unimplementedFn }

/-- Witness for C1: running the single Run Case of an unimplemented
declaration records exactly a `start`, a `skipped "test unimplemented"`
and a `finish` event. -/
theorem run_no_subcases_single_trial_witness :
    (run uniqU mergeU rcUnimplemented).1 =
      [Event.start, Event.skipped "test unimplemented", Event.finish] :=
  (run_no_subcases_single_trial uniqU mergeU rcUnimplemented rfl).2.2.2.2
    rfl rfl rfl rfl

/-- Claim C2, amended: for a Run Case with a subcase generator, the
case-level `skipped` event is emitted exactly when the skip count equals
the total count — *including vacuously when the generator yields no
subcases*; the total count is the number of generated subcases, the skip
count is the number of subcases whose trial re-raised the Skip signal,
each such subcase contributes exactly one `debug` note whose message is
rewritten as a subcase-level skip, and when only some subcases skip no
case-level `skipped` event is emitted. -/
theorem run_subcase_skip_aggregation {P : Type} (uniq : P → String)
    (mergeParams : P → P → P) (rc : RunCaseSpecific P) (gen : P → List P)
    (h : rc.subParamGen = some gen) (evs : List Event) (sc tc : Nat)
    (hL : subcaseLoop uniq mergeParams rc.fixture rc.fn rc.params
        (gen rc.params) = (evs, sc, tc)) :
    (run uniq mergeParams rc).1 =
      Event.start :: (evs ++
        (if sc = tc then [Event.skipped "all subcases were skipped"] else []) ++
        [Event.finish]) ∧
    tc = (gen rc.params).length ∧
    sc = ((gen rc.params).filter
        (reRaisedSkip mergeParams rc.fixture rc.fn rc.params)).length ∧
    (evs.filter Event.isDebug).length = sc ∧
    (∀ s, Event.debug s ∈ evs → ∃ s₀, s = "subcase skipped: " ++ s₀) ∧
    ((∃ m, Event.skipped m ∈ (run uniq mergeParams rc).1) ↔ sc = tc) := by
  have hrun := run_eq_of_some uniq mergeParams rc gen h evs sc tc hL
  have htc := subcaseLoop_total uniq mergeParams rc.fixture rc.fn rc.params
    (gen rc.params)
  have hsc := subcaseLoop_skips uniq mergeParams rc.fixture rc.fn rc.params
    (gen rc.params)
  have hdc := subcaseLoop_debug_count uniq mergeParams rc.fixture rc.fn
    rc.params (gen rc.params)
  rw [hL] at htc hsc hdc
  simp at htc hsc hdc
  have hnoskip : ∀ m, Event.skipped m ∉ evs := by
    intro m hmem
    have : Event.skipped m ∈ (subcaseLoop uniq mergeParams rc.fixture rc.fn
        rc.params (gen rc.params)).1 := by rw [hL]; exact hmem
    rcases subcaseLoop_events_mem this with ⟨s, hs⟩ | ⟨s, hs⟩ | ⟨s, hs⟩ <;>
      simp at hs
  refine ⟨by rw [hrun], htc, hsc, hdc, ?_, ?_⟩
  · intro s hs
    have : Event.debug s ∈ (subcaseLoop uniq mergeParams rc.fixture rc.fn
        rc.params (gen rc.params)).1 := by rw [hL]; exact hs
    exact subcaseLoop_debug_msg this
  · rw [hrun]
    constructor
    · rintro ⟨m, hm⟩
      by_cases hsctc : sc = tc
      · exact hsctc
      · exfalso
        rw [if_neg hsctc] at hm
        simp only [List.append_nil, List.nil_append, List.mem_cons,
          List.mem_append, List.mem_singleton] at hm
        rcases hm with hm | hm | hm | hm
        · exact Event.noConfusion hm
        · exact hnoskip m hm
        · exact Event.noConfusion hm
        · simp at hm
    · intro hsctc
      exact ⟨"all subcases were skipped", by simp [hsctc]⟩

/-- A subcase generator yielding two subcases. -/
def genTwoU : Unit → List Unit := fun _ => [(), ()]

/-- A Run Case whose every subcase raises the Skip signal. -/
def rcAllSkip : RunCaseSpecific Unit :=
  { id := ⟨["t"], ()⟩
    params := ()
    subParamGen := some genTwoU
    fixture := okFixtureU
    fn := fun _ => some (Ex.skip "s") }

/-- Witness for C2 (amended): with two subcases that both raise the Skip
signal, the Recorder observes the case-level `skipped` event, two `debug`
notes, and two subcase `info` notes, between `start` and `finish`. -/
theorem run_subcase_skip_aggregation_witness :
    (run uniqU mergeU rcAllSkip).1 =
      [Event.start,
       Event.info "subcase: u", Event.debug "subcase skipped: s",
       Event.info "subcase: u", Event.debug "subcase skipped: s",
       Event.skipped "all subcases were skipped",
       Event.finish] := by
  have h := run_subcase_skip_aggregation uniqU mergeU rcAllSkip genTwoU rfl
    [Event.info "subcase: u", Event.debug "subcase skipped: s",
     Event.info "subcase: u", Event.debug "subcase skipped: s"] 2 2 (by decide)
  rw [h.1]
  rfl

/-- A Run Case whose subcase generator yields no subcases at all. -/
def rcEmptySub : RunCaseSpecific Unit :=
  { id := ⟨["t"], ()⟩
    params := ()
    subParamGen := some (fun _ => [])
    fixture := okFixtureU
    fn := fun _ => none }

/-- Counterexample to C2 as stated: for the Run Case whose subcase
generator yields *zero* subcases, the code emits the case-level `skipped`
event (`skipCount === totalCount` holds vacuously at `0 === 0`), yet the
claim requires the number of subcases to be nonzero — so "a case-level
skipped event is reported exactly when every subcase skipped and the
number of subcases is nonzero" is false at this input. -/
theorem run_subcase_skip_aggregation_counterexample :
    ¬ ((∃ m, Event.skipped m ∈ (run uniqU mergeU rcEmptySub).1) ↔
        ((match rcEmptySub.subParamGen with
          | some gen => gen rcEmptySub.params
          | none => []).length ≠ 0 ∧
         ∀ sp ∈ (match rcEmptySub.subParamGen with
          | some gen => gen rcEmptySub.params
          | none => []),
           reRaisedSkip mergeU rcEmptySub.fixture rcEmptySub.fn
             rcEmptySub.params sp = true)) := by
  intro hiff
  have hl : ∃ m, Event.skipped m ∈ (run uniqU mergeU rcEmptySub).1 :=
    ⟨"all subcases were skipped", by decide⟩
  exact (hiff.mp hl).1 rfl

/-! ## Claim theorems: declaration, validation and expansion -/

/-- Claim C5: for a declaration with an attached body, `iterate` yields
exactly one Run Case over the empty parameter record when no case
sequence was attached, and otherwise one Run Case per case record in
declaration order; each Run Case's identity is the test path paired with
the public view of its record, while the full record (non-public
parameters included) is stored for the fixture and body. -/
theorem iterate_case_expansion {P : Type} (epp : P → P) (emptyP : P)
    (tb : TestBuilder P) (f : P → Option Ex) (h : tb.testFn = some f) :
    (tb.caseParams = none →
      tb.iterate epp emptyP =
        .ok [mkRunCaseSpecific epp tb.testPath emptyP tb.subcaseParams
          tb.fixture f]) ∧
    (∀ cps, tb.caseParams = some cps →
      tb.iterate epp emptyP =
        .ok (cps.map fun params =>
          mkRunCaseSpecific epp tb.testPath params tb.subcaseParams
            tb.fixture f)) ∧
    (∀ rcs, tb.iterate epp emptyP = .ok rcs →
      ∀ rc ∈ rcs, rc.id = ⟨tb.testPath, epp rc.params⟩ ∧
        rc.subParamGen = tb.subcaseParams ∧ rc.fixture = tb.fixture ∧
        rc.fn = f) := by
  refine ⟨?_, ?_, ?_⟩
  · intro hc
    simp [TestBuilder.iterate, h, hc]
  · intro cps hc
    simp [TestBuilder.iterate, h, hc]
  · intro rcs hrcs rc hrc
    simp only [TestBuilder.iterate, h, Except.ok.injEq] at hrcs
    subst hrcs
    obtain ⟨params, hp, rfl⟩ := List.mem_map.mp hrc
    exact ⟨rfl, rfl, rfl, rfl⟩

/-- A fixture over natural-number parameter records whose lifecycle
completes normally. -/
def okFixtureN : FixtureClass Nat :=
  { construct := fun _ => none, init := fun _ => none, finalize := fun _ => none }

/-- A test body that completes normally. -/
def noopFnN : Nat → Option Ex := fun _ => none

/-- A declaration with body attached and case records `[3, 14]`. -/
def tbTwoCases : TestBuilder Nat :=
  { testPath := ["a", "b"]
    description := none
    fixture := okFixtureN
    testFn := some noopFnN
    caseParams := some [3, 14]
    subcaseParams := none
    testCreationStack := "Test created: a,b" }

/-- Witness for C5: expanding a declaration with case records `[3, 14]`
under the public view `n % 10` yields two Run Cases, in order, whose
identity parameters are the public views `[3, 4]` while the full records
`[3, 14]` are kept for the fixture and body. -/
theorem iterate_case_expansion_witness :
    ∃ rcs, tbTwoCases.iterate (fun n => n % 10) 0 = .ok rcs ∧
      rcs.map (fun rc => rc.id.params) = [3, 4] ∧
      rcs.map (fun rc => rc.params) = [3, 14] := by
  have h := (iterate_case_expansion (fun n => n % 10) 0 tbTwoCases noopFnN
    rfl).2.1 [3, 14] rfl
  exact ⟨_, h, rfl, rfl⟩

lemma validateCases_ok_iff {P : Type} (spp sppu : P → String) (ps : String)
    (l : List P) (seen : List String) :
    validateCases spp sppu ps seen l = .ok () ↔
      (∀ x ∈ l, sppu x ∉ seen) ∧ l.Pairwise (fun a b => sppu a ≠ sppu b) := by
  induction l generalizing seen with
  | nil => simp [validateCases]
  | cons tc rest ih =>
    by_cases hmem : sppu tc ∈ seen
    · simp only [validateCases, if_pos hmem]
      constructor
      · intro h'
        exact absurd h' (by simp)
      · rintro ⟨h1, -⟩
        exact absurd hmem (h1 tc (List.mem_cons_self tc rest))
    · simp only [validateCases, if_neg hmem, ih]
      constructor
      · rintro ⟨h1, h2⟩
        refine ⟨fun x hx => ?_, List.Pairwise.cons (fun b hb => ?_) h2⟩
        · rcases List.mem_cons.mp hx with rfl | hx'
          · exact hmem
          · have := h1 x hx'
            simp [List.mem_cons] at this
            exact this.2
        · have := h1 b hb
          simp [List.mem_cons] at this
          intro heq
          exact this.1 heq.symm
      · rintro ⟨h1, h2⟩
        rcases List.pairwise_cons.mp h2 with ⟨hhd, htl⟩
        refine ⟨fun x hx => ?_, htl⟩
        simp only [List.mem_cons, not_or]
        exact ⟨fun heq => hhd x hx heq.symm, h1 x (List.mem_cons_of_mem tc hx)⟩

lemma validateCases_error_msg {P : Type} (spp sppu : P → String) (ps : String)
    (l : List P) (seen : List String) (m : String)
    (h : validateCases spp sppu ps seen l = .error m) :
    ∃ tc ∈ l, m = dupCaseMsg ps (spp tc) := by
  induction l generalizing seen with
  | nil => simp [validateCases] at h
  | cons tc rest ih =>
    by_cases hmem : sppu tc ∈ seen
    · simp only [validateCases, if_pos hmem, Except.error.injEq] at h
      exact ⟨tc, List.mem_cons_self tc rest, h.symm⟩
    · simp only [validateCases, if_neg hmem] at h
      obtain ⟨tc', htc', hm⟩ := ih (sppu tc :: seen) h
      exact ⟨tc', List.mem_cons_of_mem tc htc', hm⟩

lemma validateList_ok_iff {P : Type} (spp sppu : P → String) (kSep : Char)
    (l : List (TestBuilder P)) :
    validateList spp sppu kSep l = .ok () ↔
      ∀ tb ∈ l, tb.validate spp sppu kSep = .ok () := by
  induction l with
  | nil => simp [validateList]
  | cons t rest ih =>
    cases h : t.validate spp sppu kSep with
    | error e =>
      simp only [validateList, h]
      constructor
      · intro h'
        exact absurd h' (by simp)
      · intro hall
        have := hall t (List.mem_cons_self t rest)
        rw [h] at this
        exact absurd this (by simp)
    | ok u =>
      cases u
      simp [validateList, h, ih, List.forall_mem_cons]

lemma except_unit_not_ok {e : Except String Unit} (h : ¬ e = .ok ()) :
    ∃ m, e = .error m := by
  cases e with
  | error m => exact ⟨m, rfl⟩
  | ok u => cases u; exact absurd rfl h

/-- Claim C6: for a declaration with body and case sequence attached,
validation succeeds exactly when the unique-key renderings of the case
records are pairwise distinct — so two records with equal unique keys
make the group-wide pass fail (whatever their human-readable renderings),
while records with distinct unique keys never trigger the failure even if
their human-readable renderings coincide — and every failure message
cites the human-readable rendering of an offending record. -/
theorem validate_duplicate_unique_keys {P : Type} (spp sppu : P → String)
    (kSep : Char) (tb : TestBuilder P) (f : P → Option Ex) (cps : List P)
    (hf : tb.testFn = some f) (hc : tb.caseParams = some cps) :
    (tb.validate spp sppu kSep = .ok () ↔
      cps.Pairwise fun a b => sppu a ≠ sppu b) ∧
    (∀ m, tb.validate spp sppu kSep = .error m →
      ∃ tc ∈ cps,
        m = dupCaseMsg (String.intercalate (sepStr kSep) tb.testPath)
          (spp tc)) ∧
    (∀ g : TestGroup P, tb ∈ g.tests →
      ¬ cps.Pairwise (fun a b => sppu a ≠ sppu b) →
      ∃ m, TestGroup.validate spp sppu kSep g = .error m) := by
  have hval : tb.validate spp sppu kSep =
      validateCases spp sppu (String.intercalate (sepStr kSep) tb.testPath)
        [] cps := by
    simp [TestBuilder.validate, hf, hc]
  refine ⟨?_, ?_, ?_⟩
  · rw [hval, validateCases_ok_iff]
    simp
  · intro m hm
    rw [hval] at hm
    exact validateCases_error_msg spp sppu _ cps [] m hm
  · intro g hmem hpw
    have hnotok : ¬ tb.validate spp sppu kSep = .ok () := by
      rw [hval, validateCases_ok_iff]
      simp only [List.not_mem_nil, not_false_iff, implies_true, true_and]
      intro hcon
      exact hpw hcon
    have : ¬ TestGroup.validate spp sppu kSep g = .ok () := by
      intro hok
      exact hnotok ((validateList_ok_iff spp sppu kSep g.tests).mp hok tb hmem)
    exact except_unit_not_ok this

/-- Human-readable rendering used in the witnesses. -/
def sppN : Nat → String := fun n => toString n

/-- Unique-key rendering used in the witnesses. -/
def sppuN : Nat → String := fun n => toString n

/-- A declaration with body attached and the duplicate case records
`[1, 1]`. -/
def tbDup : TestBuilder Nat :=
  { testPath := ["t"]
    description := none
    fixture := okFixtureN
    testFn := some noopFnN
    caseParams := some [1, 1]
    subcaseParams := none
    testCreationStack := "Test created: t" }

/-- Witness for C6: validating the declaration with duplicate case
records `[1, 1]` produces exactly the duplicate-case diagnostic citing
the human-readable rendering `1`. -/
theorem validate_duplicate_unique_keys_witness :
    ∃ tc ∈ [1, 1],
      ("Duplicate public test case params for test t: 1" : String) =
        dupCaseMsg "t" (sppN tc) :=
  (validate_duplicate_unique_keys sppN sppuN ',' tbDup noopFnN [1, 1]
    rfl rfl).2.1 _ (by rfl)

/-- Claim C7: every declaration lacking an attached body makes the
group-wide validation pass fail; the declaration's own diagnostic is the
missing-body message citing its creation origin, and for a declaration
produced by `TestGroup.test` that origin text names the declared test. -/
theorem validate_missing_body {P : Type} (spp sppu : P → String)
    (kSep : Char) (g : TestGroup P) (tb : TestBuilder P)
    (hmem : tb ∈ g.tests) (hb : tb.testFn = none) :
    (∃ m, TestGroup.validate spp sppu kSep g = .error m) ∧
    tb.validate spp sppu kSep =
      .error (missingFnMsg (String.intercalate (sepStr kSep) tb.testPath)
        tb.testCreationStack) ∧
    (∀ (dec : String → String) (vqp : String → Bool) (g₀ g₁ : TestGroup P)
        (name : String),
      TestGroup.test dec vqp kSep g₀ name = .ok (g₁, tb) →
      tb.testCreationStack = "Test created: " ++ name) := by
  have hval : tb.validate spp sppu kSep =
      .error (missingFnMsg (String.intercalate (sepStr kSep) tb.testPath)
        tb.testCreationStack) := by
    simp [TestBuilder.validate, hb]
  refine ⟨?_, hval, ?_⟩
  · have : ¬ TestGroup.validate spp sppu kSep g = .ok () := by
      intro hok
      have := (validateList_ok_iff spp sppu kSep g.tests).mp hok tb hmem
      rw [hval] at this
      exact absurd this (by simp)
    exact except_unit_not_ok this
  · intro dec vqp g₀ g₁ name htest
    cases hcn : g₀.checkName dec name with
    | error e => simp [TestGroup.test, hcn] at htest
    | ok g' =>
      by_cases hall : (jsSplit kSep name).all vqp
      · simp only [TestGroup.test, hcn, hall, if_true] at htest
        obtain ⟨-, rfl⟩ := Prod.mk.injEq .. ▸ Except.ok.inj htest
        rfl
      · simp [TestGroup.test, hcn, hall] at htest

/-- A declaration registered without ever attaching a body. -/
def tbBodyless : TestBuilder Nat :=
  { testPath := ["t"]
    description := none
    fixture := okFixtureN
    testFn := none
    caseParams := none
    subcaseParams := none
    testCreationStack := "Test created: t" }

/-- A group holding only the body-less declaration. -/
def gBodyless : TestGroup Nat :=
  { fixture := okFixtureN, seen := ["t"], tests := [tbBodyless] }

/-- Witness for C7: the group holding a body-less declaration fails
group-wide validation. -/
theorem validate_missing_body_witness :
    ∃ m, TestGroup.validate sppN sppuN ',' gBodyless = .error m :=
  (validate_missing_body sppN sppuN ',' gBodyless tbBodyless
    (List.mem_cons_self tbBodyless []) rfl).1

/-- Claim C8: `TestGroup.test` fails by assertion exactly when the name is
not idempotent under percent-decoding, the name is already registered, or
some segment of the split name is syntactically invalid; otherwise it
creates and stores a fresh declaration, growing the registry by one.
Under the registry invariant that every stored declaration's joined path
is in the seen set (and path-separator round-tripping of the name),
declaring a test whose joined path equals a registered one's fails. -/
theorem declare_test_checks {P : Type} (dec : String → String)
    (vqp : String → Bool) (sep : Char) (g : TestGroup P) (name : String) :
    ((∃ m, TestGroup.test dec vqp sep g name = .error m) ↔
      (name ≠ dec name ∨ name ∈ g.seen ∨
        ∃ p ∈ jsSplit sep name, vqp p = false)) ∧
    (∀ g' tb, TestGroup.test dec vqp sep g name = .ok (g', tb) →
      g'.tests = g.tests ++ [tb] ∧ g'.seen = name :: g.seen ∧
      g'.tests.length = g.tests.length + 1 ∧
      tb.testPath = jsSplit sep name ∧ tb.testFn = none ∧
      tb.caseParams = none ∧ tb.subcaseParams = none ∧
      tb.testCreationStack = "Test created: " ++ name) ∧
    ((∀ tb' ∈ g.tests, String.intercalate (sepStr sep) tb'.testPath ∈ g.seen) →
      String.intercalate (sepStr sep) (jsSplit sep name) = name →
      (∃ tb' ∈ g.tests,
        String.intercalate (sepStr sep) tb'.testPath =
          String.intercalate (sepStr sep) (jsSplit sep name)) →
      ∃ m, TestGroup.test dec vqp sep g name = .error m) := by
  have hmain : (∃ m, TestGroup.test dec vqp sep g name = .error m) ↔
      (name ≠ dec name ∨ name ∈ g.seen ∨
        ∃ p ∈ jsSplit sep name, vqp p = false) := by
    by_cases h1 : name = dec name
    · have hdec : ¬ (name ≠ dec name) := not_not_intro h1
      by_cases h2 : name ∈ g.seen
      · have hcn : g.checkName dec name =
            .error ("Duplicate test name: " ++ name) := by
          unfold TestGroup.checkName
          rw [if_neg hdec, if_pos h2]
        simp only [TestGroup.test, hcn]
        constructor
        · intro _h
          exact Or.inr (Or.inl h2)
        · intro _h
          exact ⟨_, rfl⟩
      · have hcn : g.checkName dec name =
            .ok { g with seen := name :: g.seen } := by
          unfold TestGroup.checkName
          rw [if_neg hdec, if_neg h2]
        by_cases h3 : (jsSplit sep name).all vqp
        · simp only [TestGroup.test, hcn, if_pos h3]
          constructor
          · rintro ⟨m, hm⟩
            exact absurd hm (by simp)
          · rintro (hc | hc | ⟨p, hp, hvp⟩)
            · exact absurd h1 hc
            · exact absurd hc h2
            · have := List.all_eq_true.mp h3 p hp
              rw [hvp] at this
              exact absurd this (by simp)
        · simp only [TestGroup.test, hcn, if_neg h3]
          constructor
          · intro _h
            refine Or.inr (Or.inr ?_)
            rw [List.all_eq_true] at h3
            push_neg at h3
            obtain ⟨p, hp, hvp⟩ := h3
            exact ⟨p, hp, by simpa using hvp⟩
          · intro _h
            exact ⟨_, rfl⟩
    · have hcn : g.checkName dec name =
          .error ("Not decodeURIComponent-idempotent: " ++ name ++ " !== " ++
            dec name) := by
        unfold TestGroup.checkName
        rw [if_pos h1]
      simp only [TestGroup.test, hcn]
      constructor
      · intro _h
        exact Or.inl h1
      · intro _h
        exact ⟨_, rfl⟩
  refine ⟨hmain, ?_, ?_⟩
  · intro g' tb htest
    by_cases h1 : name = dec name
    · have hdec : ¬ (name ≠ dec name) := not_not_intro h1
      by_cases h2 : name ∈ g.seen
      · have hcn : g.checkName dec name =
            .error ("Duplicate test name: " ++ name) := by
          unfold TestGroup.checkName
          rw [if_neg hdec, if_pos h2]
        simp only [TestGroup.test, hcn] at htest
        exact absurd htest (by simp)
      · have hcn : g.checkName dec name =
            .ok { g with seen := name :: g.seen } := by
          unfold TestGroup.checkName
          rw [if_neg hdec, if_neg h2]
        by_cases h3 : (jsSplit sep name).all vqp
        · simp only [TestGroup.test, hcn, if_pos h3, Except.ok.injEq,
            Prod.mk.injEq] at htest
          obtain ⟨hg', htb⟩ := htest
          subst hg'
          subst htb
          exact ⟨rfl, rfl, by simp, rfl, rfl, rfl, rfl, rfl⟩
        · simp only [TestGroup.test, hcn, if_neg h3] at htest
          exact absurd htest (by simp)
    · have hcn : g.checkName dec name =
          .error ("Not decodeURIComponent-idempotent: " ++ name ++ " !== " ++
            dec name) := by
        unfold TestGroup.checkName
        rw [if_pos h1]
      simp only [TestGroup.test, hcn] at htest
      exact absurd htest (by simp)
  · rintro hinv hjoin ⟨tb', htb', heq⟩
    refine hmain.mpr (Or.inr (Or.inl ?_))
    have := hinv tb' htb'
    rw [heq, hjoin] at this
    exact this

/-- The identity percent-decoder (for names containing no escapes). -/
def idDec : String → String := fun s => s

/-- A query-part predicate accepting everything. -/
def vqpAll : String → Bool := fun _ => true

/-- A group over `Nat` parameters that has already registered the test
name `a`. -/
def gSeenA : TestGroup Nat :=
  { fixture := okFixtureN
    seen := ["a"]
    tests := [{ testPath := ["a"]
                description := none
                fixture := okFixtureN
                testFn := some noopFnN
                caseParams := none
                subcaseParams := none
                testCreationStack := "Test created: a" }] }

/-- Witness for C8: declaring a second test whose joined path equals the
already-registered `a` fails at declaration time. -/
theorem declare_test_checks_witness :
    ∃ m, TestGroup.test idDec vqpAll ',' gSeenA "a" = .error m :=
  (declare_test_checks idDec vqpAll ',' gSeenA "a").2.2
    (by intro tb' htb'
        simp only [gSeenA, List.mem_singleton] at htb'
        subst htb'
        decide)
    (by decide)
    ⟨gSeenA.tests.head (by simp [gSeenA]), by simp [gSeenA], by decide⟩

/-- Claim C9: on a declaration builder, attaching a test body when one is
already attached (explicit `fn` or the synthetic one from
`unimplemented`), attaching a case-parameter sequence twice, or attaching
a subcase generator twice fails by immediate assertion; each attach
succeeds exactly when the corresponding slot is still empty. -/
theorem builder_attach_once {P : Type} (tb : TestBuilder P)
    (f : P → Option Ex) (it : OneShotIter P) (specs : P → List P) :
    ((∃ tb', tb.fn f = .ok tb') ↔ tb.testFn = none) ∧
    ((∃ tb', tb.unimplemented = .ok tb') ↔ tb.testFn = none) ∧
    ((∃ r, tb.cases it = .ok r) ↔ tb.caseParams = none) ∧
    ((∃ tb', tb.subcases specs = .ok tb') ↔ tb.subcaseParams = none) := by
  refine ⟨?_, ?_, ?_, ?_⟩
  · cases h : tb.testFn <;> simp [TestBuilder.fn, h]
  · cases h : tb.testFn <;> simp [TestBuilder.unimplemented, h]
  · cases h : tb.caseParams <;> simp [TestBuilder.cases, h]
  · cases h : tb.subcaseParams <;> simp [TestBuilder.subcases, h]

lemma arrayFrom_eq {P : Type} (it : OneShotIter P) :
    arrayFrom it = (it.remaining, ⟨[]⟩) := by
  rcases it with ⟨l⟩
  induction l with
  | nil => simp [arrayFrom]
  | cons x xs ih => simp [arrayFrom, ih]

/-- Claim C10: attaching a case-parameter sequence eagerly copies the
supplied iterable into the stored sequence at attachment time: the whole
yield sequence of a one-shot iterator is stored and the iterator is left
exhausted, and both the validation pass and Run Case expansion
subsequently read exactly this stored snapshot (the drained iterator is
never consulted again; re-running them observes the same snapshot). -/
theorem cases_eager_snapshot {P : Type} (tb : TestBuilder P)
    (it : OneShotIter P) (h : tb.caseParams = none) :
    ∃ tb' it', tb.cases it = .ok (tb', it') ∧
      tb'.caseParams = some it.remaining ∧
      it'.next = none ∧
      (∀ spp sppu (kSep : Char) f, tb'.testFn = some f →
        tb'.validate spp sppu kSep =
          validateCases spp sppu
            (String.intercalate (sepStr kSep) tb'.testPath) []
            it.remaining) ∧
      (∀ (epp : P → P) (emptyP : P) f, tb'.testFn = some f →
        tb'.iterate epp emptyP =
          .ok (it.remaining.map fun params =>
            mkRunCaseSpecific epp tb'.testPath params tb'.subcaseParams
              tb'.fixture f)) := by
  refine ⟨{ tb with caseParams := some it.remaining }, ⟨[]⟩, ?_, rfl, rfl, ?_, ?_⟩
  · simp [TestBuilder.cases, h, arrayFrom_eq]
  · intro spp sppu kSep f hf
    have hf' : tb.testFn = some f := hf
    simp [TestBuilder.validate, hf']
  · intro epp emptyP f hf
    have hf' : tb.testFn = some f := hf
    simp [TestBuilder.iterate, hf']

/-- A declaration with a body attached and no cases yet. -/
def tbNoCases : TestBuilder Nat :=
  { testPath := ["t"]
    description := none
    fixture := okFixtureN
    testFn := some noopFnN
    caseParams := none
    subcaseParams := none
    testCreationStack := "Test created: t" }

/-- Witness for C10: attaching the one-shot iterator yielding `[5, 6]`
stores the snapshot `[5, 6]` and leaves the iterator exhausted. -/
theorem cases_eager_snapshot_witness :
    ∃ tb' it', tbNoCases.cases ⟨[5, 6]⟩ = .ok (tb', it') ∧
      tb'.caseParams = some [5, 6] ∧ it'.next = none := by
  obtain ⟨tb', it', h1, h2, h3, -, -⟩ :=
    cases_eager_snapshot tbNoCases ⟨[5, 6]⟩ rfl
  exact ⟨tb', it', h1, h2, h3⟩

end CTS
